import Mathlib

/-!
Shallow embedding of the Dolphin-api page-element pipeline
(src/demo_page_edit.py) and proofs of the specification claims.

The external collaborators (BeautifulSoup's parser, the recognition
backend, `process_coordinates` / `save_figure_to_local` from
`utils.utils`, and the filesystem) are modelled as explicit parameters
or oracle data; everything that `demo_page_edit.py` itself computes is
translated line by line.
-/

namespace Dolphin

/-! ## HTML tree model (the object BeautifulSoup hands back)

`parse_html_to_json` only uses `find_all`, attribute lookup via `get`,
tag names, and `get_text(strip=True)`; we model the parsed document as
a tree and those four operations on it. The parser itself
(`BeautifulSoup(html_text, "html.parser")`) is an external library and
is passed in as an oracle `String → Except String HtmlNode` that either
returns a tree or raises. -/

/-- Python's `s.strip()`: surrounding whitespace removed. -/
def pyStrip (s : String) : String :=
  String.mk (((s.data.dropWhile Char.isWhitespace).reverse.dropWhile Char.isWhitespace).reverse)

/-- Python's `int(s)` on a decimal digit string. -/
def digitsToNat (s : String) : Nat :=
  s.data.foldl (fun n c => 10 * n + (c.toNat - 48)) 0

/-- Python's `c in s` for a single character. -/
def pyContains (s : String) (c : Char) : Bool :=
  s.data.contains c

mutual
inductive HtmlNode : Type where
  | elem (tag : String) (attrs : List (String × String)) (children : HtmlForest)
  | txt (s : String)
inductive HtmlForest : Type where
  | nil
  | cons (n : HtmlNode) (f : HtmlForest)
end

/-- Convenience constructor for concrete trees. -/
def HtmlForest.ofList : List HtmlNode → HtmlForest
  | [] => HtmlForest.nil
  | n :: rest => HtmlForest.cons n (HtmlForest.ofList rest)

/-- `find_all` over sibling nodes: document order, descending into
every element (BeautifulSoup's `find_all` matches all descendants,
including elements nested inside other matches). -/
def findAllIn (tags : List String) : HtmlForest → List HtmlNode
  | HtmlForest.nil => []
  | HtmlForest.cons (HtmlNode.txt _) rest => findAllIn tags rest
  | HtmlForest.cons (HtmlNode.elem t a cs) rest =>
      (if t ∈ tags then [HtmlNode.elem t a cs] else []) ++ findAllIn tags cs ++ findAllIn tags rest

/-- `node.find_all(tags)`: search the strict descendants of `node`. -/
def HtmlNode.findAll (n : HtmlNode) (tags : List String) : List HtmlNode :=
  match n with
  | HtmlNode.elem _ _ cs => findAllIn tags cs
  | HtmlNode.txt _ => []

/-- The text strings under sibling nodes, in document order. -/
def textsIn : HtmlForest → List String
  | HtmlForest.nil => []
  | HtmlForest.cons (HtmlNode.txt s) rest => s :: textsIn rest
  | HtmlForest.cons (HtmlNode.elem _ _ cs) rest => textsIn cs ++ textsIn rest

/-- `node.get_text(strip=True)`: every descendant string stripped,
whitespace-only strings dropped, the rest concatenated. -/
def HtmlNode.getText (n : HtmlNode) : String :=
  String.join ((((match n with
    | HtmlNode.elem _ _ cs => textsIn cs
    | HtmlNode.txt s => [s]).map pyStrip).filter (fun s => s ≠ "")))

def HtmlNode.tagOf : HtmlNode → String
  | HtmlNode.elem t _ _ => t
  | HtmlNode.txt _ => ""

def HtmlNode.attrsOf : HtmlNode → List (String × String)
  | HtmlNode.elem _ a _ => a
  | HtmlNode.txt _ => []

def HtmlForest.mem (n : HtmlNode) : HtmlForest → Prop
  | HtmlForest.nil => False
  | HtmlForest.cons m rest => n = m ∨ HtmlForest.mem n rest

/-! ## The structured-JSON output of parse_html_to_json -/

/-- A Python value reaching `parse_html_to_json` from the service
boundary: `None`, a string, or some other object (carrying only its
truthiness, which is all the code inspects). -/
inductive PyInput : Type where
  | none
  | str (s : String)
  | other (truthy : Bool)
deriving Repr, DecidableEq

def PyInput.truthy : PyInput → Bool
  | PyInput.none => false
  | PyInput.str s => s ≠ ""
  | PyInput.other b => b

def PyInput.isStr : PyInput → Bool
  | PyInput.str _ => true
  | _ => false

/-- One table cell of the structured output (lines 56-61 of
demo_page_edit.py). -/
structure Cell : Type where
  content : String
  tag : String
  colspan : Nat
  rowspan : Nat
deriving Repr, DecidableEq

/-- A single list / heading / paragraph entry of `structured_content`. -/
inductive StructElem : Type where
  | list (listType : String) (items : List String)
  | heading (level : Nat) (content : String)
  | paragraph (content : String)
deriving Repr, DecidableEq

/-- The dictionaries `parse_html_to_json` can return. `textNode` keeps
the original Python value in `content` (the early-exit branches return
it unchanged, string or not) and the optional `parse_error` marker. -/
inductive ParsedNode : Type where
  | textNode (content : PyInput) (parseError : Option String)
  | tableNode (rows : List (List Cell))
  | multipleTables (tables : List (List (List Cell)))
  | single (e : StructElem)
  | mixedContent (elements : List StructElem)
deriving Repr, DecidableEq

/-- Python's `s.isdigit()` for the ASCII inputs we model: nonempty and
all characters are decimal digits. -/
def isDigitStr (s : String) : Bool :=
  s ≠ "" && s.data.all Char.isDigit

/-- Lines 59-60: `int(cell.get(name, 1)) if cell.get(name, '1').isdigit() else 1`.
Absent attribute: the condition is `'1'.isdigit()` (true) and the value
is `int(1) = 1`. Present and a digit string: its numeric value (which
may be 0). Otherwise 1. -/
def spanVal (attrs : List (String × String)) (name : String) : Nat :=
  match attrs.lookup name with
  | Option.none => 1
  | Option.some v => if isDigitStr v then digitsToNat v else 1

/-- Lines 54-62: one `td`/`th` node to a cell record. (`find_all` only
returns element nodes; the text case is unreachable.) -/
def cellOf (n : HtmlNode) : Cell :=
  { content := n.getText
    tag := n.tagOf
    colspan := spanVal n.attrsOf "colspan"
    rowspan := spanVal n.attrsOf "rowspan" }

/-- Lines 51-63: one `tr` row to its list of cells. -/
def rowOf (row : HtmlNode) : List Cell :=
  (row.findAll ["td", "th"]).map cellOf

/-- Lines 49-63: one `table` node to its rows. -/
def tableOf (t : HtmlNode) : List (List Cell) :=
  (t.findAll ["tr"]).map rowOf

/-- Lines 77-84: one `ul`/`ol` node to a list entry. -/
def listOf (n : HtmlNode) : StructElem :=
  StructElem.list n.tagOf ((n.findAll ["li"]).map HtmlNode.getText)

/-- Line 91: `int(heading.name[1])` — the digit after the `h`. -/
def headingLevel (tag : String) : Nat :=
  match tag.data with
  | _ :: c :: _ => c.toNat - 48
  | _ => 0

/-- Lines 88-94: one heading node to a heading entry. -/
def headingOf (n : HtmlNode) : StructElem :=
  StructElem.heading (headingLevel n.tagOf) n.getText

/-- Lines 98-103: one `p` node to a paragraph entry. -/
def paraOf (n : HtmlNode) : StructElem :=
  StructElem.paragraph n.getText

/-- Lines 72-103: `structured_content` — all lists, then all headings,
then all paragraphs, each group in document order. -/
def structuredContent (soup : HtmlNode) : List StructElem :=
  (soup.findAll ["ul", "ol"]).map listOf
    ++ (soup.findAll ["h1", "h2", "h3", "h4", "h5", "h6"]).map headingOf
    ++ (soup.findAll ["p"]).map paraOf

/-- Lines 20-119: `parse_html_to_json`. `parse` is the BeautifulSoup
constructor; `Except.error e` is the parser raising, caught by the
`except` at line 116 which returns the original text plus a
`parse_error` field. The only fallible operation inside the `try`
block in our (ASCII) model is the parse itself. -/
def parse_html_to_json (parse : String → Except String HtmlNode)
    (html_text : PyInput) : ParsedNode :=
  match html_text with
  | PyInput.none => ParsedNode.textNode html_text Option.none
  | PyInput.other _ => ParsedNode.textNode html_text Option.none
  | PyInput.str s =>
    if s = "" then ParsedNode.textNode html_text Option.none
    else if ¬ (pyContains s '<' ∧ pyContains s '>') then ParsedNode.textNode html_text Option.none
    else
      match parse s with
      | Except.error e => ParsedNode.textNode html_text (Option.some e)
      | Except.ok soup =>
        match soup.findAll ["table"] with
        | [] =>
          match structuredContent soup with
          | [] => ParsedNode.textNode (PyInput.str soup.getText) Option.none
          | [e] => ParsedNode.single e
          | sc => ParsedNode.mixedContent sc
        | tables =>
          match tables.map tableOf with
          | [t] => ParsedNode.tableNode t
          | parsed => ParsedNode.multipleTables parsed

/-- All table cells appearing in a parsed node, for stating span
positivity uniformly over both table-shaped results. -/
def ParsedNode.cells : ParsedNode → List Cell
  | ParsedNode.tableNode rows => rows.flatten
  | ParsedNode.multipleTables ts => (ts.map List.flatten).flatten
  | _ => []

/-- No attribute value anywhere under the given sibling nodes is a
digit string of numeric value zero (the hypothesis under which span
fields are positive). -/
def noZeroDigitAttrIn : HtmlForest → Bool
  | HtmlForest.nil => true
  | HtmlForest.cons (HtmlNode.txt _) rest => noZeroDigitAttrIn rest
  | HtmlForest.cons (HtmlNode.elem _ a cs) rest =>
      a.all (fun p => !(isDigitStr p.2) || (digitsToNat p.2 != 0))
        && noZeroDigitAttrIn cs && noZeroDigitAttrIn rest

def noZeroDigitAttr (n : HtmlNode) : Bool :=
  noZeroDigitAttrIn (HtmlForest.cons n HtmlForest.nil)

/-! ## Page element processing (process_elements, lines 198-278)

`parse_layout_string` and `process_coordinates` live in `utils.utils`
(outside this repository's visible sources); per box they either raise
(the `except` at line 250 skips the box before `reading_order` is
incremented) or produce original-image coordinates together with a crop
that is empty or not. A layout entry therefore carries its label and
that oracle outcome. The recognition backend (`model.chat`) is an
oracle from the prompt list to either a result list or a raised
exception. `save_figure_to_local` is an oracle from the reading order
to the saved file name. -/

inductive CoordOutcome : Type where
  | err
  | ok (bbox : List Int) (cropNonempty : Bool)
deriving Repr, DecidableEq

structure LayoutEntry : Type where
  label : String
  coord : CoordOutcome
deriving Repr, DecidableEq

/-- One output dictionary of `process_elements`. Figure dictionaries
(lines 225-233) carry a `figure_path` key; text/table dictionaries
(lines 266-273) do not, which `figure_path = none` records. -/
structure Element : Type where
  label : String
  bbox : List Int
  text : String
  figure_path : Option String
  reading_order : Nat
deriving Repr, DecidableEq

/-- A queued text/table element awaiting the batched recognition call
(lines 238-246; the cropped image itself is abstracted away). -/
structure QueuedElem : Type where
  label : String
  prompt : String
  bbox : List Int
  reading_order : Nat
deriving Repr, DecidableEq

/-- Line 237: prompt choice by label. -/
def promptFor (label : String) : String :=
  if label = "tab" then "Parse the table in the image." else "Read text in the image."

/-- Lines 204-252: the collection loop. `k` is the `reading_order`
counter. A raising box is skipped without incrementing the counter
(`continue` at line 252 jumps over line 248); an empty crop appends
nothing but still reaches line 248, so the counter advances. Returns
(`figure_results`, `text_table_elements`). -/
def collectElements (figName : Nat → String) : List LayoutEntry → Nat → List Element × List QueuedElem
  | [], _ => ([], [])
  | e :: rest, k =>
    match e.coord with
    | CoordOutcome.err => collectElements figName rest k
    | CoordOutcome.ok bbox ne =>
      let tl := collectElements figName rest (k + 1)
      if ne then
        if e.label = "fig" then
          ({ label := e.label
             bbox := bbox
             text := "![Figure](figures/" ++ figName k ++ ")"
             figure_path := Option.some ("figures/" ++ figName k)
             reading_order := k } :: tl.1, tl.2)
        else
          (tl.1, { label := e.label
                   prompt := promptFor e.label
                   bbox := bbox
                   reading_order := k } :: tl.2)
      else tl

/-- Lines 266-273: a recognized element built from its queued element
and the backend's result string — the queued label, bbox and reading
order, with `result.strip()` as the text. -/
def mkRecognized (q : QueuedElem) (r : String) : Element :=
  { label := q.label
    bbox := q.bbox
    text := pyStrip r
    figure_path := Option.none
    reading_order := q.reading_order }

/-- Lines 264-273: `for i, result in enumerate(batch_results)` indexes
`text_table_elements[i]`; more results than queued elements is an
IndexError, fewer just attaches fewer. -/
def attachResults : List String → List QueuedElem → Except String (List Element)
  | [], _ => Except.ok []
  | _ :: _, [] => Except.error "IndexError"
  | r :: rs, q :: qs =>
    (attachResults rs qs).map (fun tl => mkRecognized q r :: tl)

/-- Line 276: the sort order, `key=lambda x: x.get("reading_order", 0)`
(every produced dictionary carries the key). -/
def roLE (a b : Element) : Prop :=
  a.reading_order ≤ b.reading_order

instance : DecidableRel roLE :=
  fun a b => Nat.decLe a.reading_order b.reading_order

instance : IsTotal Element roLE :=
  ⟨fun a b => Nat.le_total a.reading_order b.reading_order⟩

instance : IsTrans Element roLE :=
  ⟨fun _ _ _ h1 h2 => Nat.le_trans h1 h2⟩

/-- Lines 254-276: starting from `figure_results`, invoke the backend
once over the queued prompts when there are any (line 256), attach the
results, and sort everything by `reading_order` (Python's stable sort,
line 276). A raised backend call propagates out as `Except.error`. -/
def assembleResults (recognize : List String → Except String (List String))
    (figs : List Element) (qs : List QueuedElem) : Except String (List Element) :=
  match qs with
  | [] => Except.ok (List.insertionSort roLE figs)
  | _ :: _ =>
    match recognize (qs.map (fun q => q.prompt)) with
    | Except.error e => Except.error e
    | Except.ok rs =>
      (attachResults rs qs).map (fun recs => List.insertionSort roLE (figs ++ recs))

/-- Lines 198-278: `process_elements` — the collection loop followed by
batched recognition and the final sort. -/
def process_elements (figName : Nat → String)
    (recognize : List String → Except String (List String))
    (entries : List LayoutEntry) : Except String (List Element) :=
  assembleResults recognize
    (collectElements figName entries 0).1 (collectElements figName entries 0).2

/-! ## Multi-page PDF processing (process_document, lines 122-158) -/

/-- One rasterized PDF page: its layout-oracle outcomes and its
backend outcome for the batched recognition call. -/
structure PageInput : Type where
  entries : List LayoutEntry
  recognize : List String → Except String (List String)

/-- Lines 149-152: per-page result record. -/
structure PageResult : Type where
  page_number : Nat
  elements : List Element

/-- Lines 136-153: the page loop. There is no `try` around
`process_single_image`, so a page whose batch call raises aborts the
whole loop and the earlier pages' results are discarded with it. -/
def processPages (figName : Nat → Nat → String) : List PageInput → Nat → Except String (List PageResult)
  | [], _ => Except.ok []
  | p :: rest, idx =>
    match process_elements (figName idx) p.recognize p.entries with
    | Except.error e => Except.error e
    | Except.ok els =>
      (processPages figName rest (idx + 1)).map
        (fun tl => { page_number := idx + 1, elements := els } :: tl)

/-- Lines 126-158: `process_document` on a PDF. An empty rasterization
raises (line 131); otherwise every page is processed in order and the
aggregated per-page results are returned. -/
def process_document_pdf (figName : Nat → Nat → String)
    (pages : List PageInput) : Except String (List PageResult) :=
  match pages with
  | [] => Except.error "Failed to convert PDF to images"
  | _ :: _ => processPages figName pages 0

/-! ## Saving with HTML parsing (lines 281-395) — a heap model

The two save functions are stateful Python: they `copy.deepcopy`
element dictionaries, add a `parsed_content` key to the copies, and
hand the original dictionaries to the markdown renderer. To state the
frame property (originals are not mutated) we model dictionaries as
references into an explicit store; `deepcopy` allocates a fresh
reference holding the same value, and adding a key updates the store
at one reference. File writes and the external `MarkdownConverter`
are outside the model; what matters is which references each consumer
receives and what the store holds afterwards. -/

/-- The value of one recognition-result dictionary: the `Element`
fields plus the optional `parsed_content` key the save functions add
to copies. -/
structure ElemVal : Type where
  label : String
  bbox : List Int
  text : String
  figure_path : Option String
  reading_order : Nat
  parsed_content : Option ParsedNode

/-- A heap of element dictionaries: references below `next` are
allocated. -/
structure Store : Type where
  vals : Nat → ElemVal
  next : Nat

/-- `copy.deepcopy(element)`: allocate a fresh reference holding the
same value. -/
def deepcopyElem (s : Store) (id : Nat) : Store × Nat :=
  ({ vals := fun n => if n = s.next then s.vals id else s.vals n
     next := s.next + 1 }, s.next)

/-- `d["parsed_content"] = p`: update the store at one reference. -/
def setParsed (s : Store) (id : Nat) (p : ParsedNode) : Store :=
  { s with vals := fun n =>
      if n = id then { s.vals id with parsed_content := Option.some p } else s.vals n }

/-- The allocation effect of `copy.deepcopy(page_data)` (line 298): a
fresh copy of every element dictionary of the page (the copies are
then discarded when the `elements` key is overwritten at line 311). -/
def deepcopyList (s : Store) : List Nat → Store
  | [] => s
  | id :: rest => deepcopyList (deepcopyElem s id).1 rest

/-- Lines 372-378 and 302-307: deep-copy one element and, when its
`text` is truthy, attach `parse_html_to_json` of that text to the
copy. Returns the new store and the copy's reference. -/
def copyParseStep (parse : String → Except String HtmlNode)
    (s : Store) (id : Nat) : Store × Nat :=
  let c := deepcopyElem s id
  if (c.1.vals c.2).text ≠ "" then
    (setParsed c.1 c.2 (parse_html_to_json parse (PyInput.str (c.1.vals c.2).text)), c.2)
  else c

/-- Lines 371-381 and 299-309: the per-element loop of the save
functions, returning the new store and the copies' references in
order. -/
def copyAndParseList (parse : String → Except String HtmlNode)
    (s : Store) : List Nat → Store × List Nat
  | [] => (s, [])
  | id :: rest =>
    let c := copyParseStep parse s id
    let tl := copyAndParseList parse c.1 rest
    (tl.1, c.2 :: tl.2)

/-- Lines 366-395: `save_outputs_with_html_parsing`. Returns the final
store, the references serialized to JSON (the parsed copies), and the
references handed to the markdown renderer (line 390: the original
`recognition_results`). -/
def save_outputs_model (parse : String → Except String HtmlNode)
    (s : Store) (ids : List Nat) : Store × List Nat × List Nat :=
  let r := copyAndParseList parse s ids
  (r.1, r.2, ids)

/-- One page of a multi-page PDF result: page number and the
references of its element dictionaries. -/
structure PageData : Type where
  page_number : Nat
  elements : List Nat
deriving Repr, DecidableEq

/-- One entry of the list handed to the markdown renderer by
`save_combined_pdf_results_with_html_parsing`: an original element
reference, or the synthetic page separator built at lines 340-344
(carrying its `reading_order = len(all_elements)`). -/
inductive MdItem : Type where
  | ref (id : Nat)
  | sep (reading_order : Nat)
deriving Repr, DecidableEq

/-- Lines 334-345: build `all_elements` from the original page data —
skip empty pages, put a separator between consecutive nonempty pages,
then extend with the page's original element references. -/
def buildMd (acc : List MdItem) : List PageData → List MdItem
  | [] => acc
  | p :: rest =>
    match p.elements with
    | [] => buildMd acc rest
    | els =>
      buildMd ((if acc ≠ [] then acc ++ [MdItem.sep acc.length] else acc)
        ++ els.map MdItem.ref) rest

/-- Lines 296-312: per page, deep-copy the page (allocating copies of
its elements), then rebuild `elements` from fresh parsed copies of the
original elements. -/
def save_combined_loop (parse : String → Except String HtmlNode)
    (s : Store) : List PageData → Store × List PageData
  | [] => (s, [])
  | p :: rest =>
    let s0 := deepcopyList s p.elements
    let r := copyAndParseList parse s0 p.elements
    let tl := save_combined_loop parse r.1 rest
    (tl.1, { page_number := p.page_number, elements := r.2 } :: tl.2)

/-- Lines 281-363: `save_combined_pdf_results_with_html_parsing`.
Returns the final store, the parsed page copies serialized to JSON,
and the item list handed to the markdown renderer (built from the
original `all_page_results`, line 335). -/
def save_combined_model (parse : String → Except String HtmlNode)
    (s : Store) (pages : List PageData) : Store × List PageData × List MdItem :=
  let r := save_combined_loop parse s pages
  (r.1, r.2, buildMd [] pages)

/-- The element references an `MdItem` list contains, in order. -/
def mdRefs (l : List MdItem) : List Nat :=
  l.filterMap (fun i => match i with
    | MdItem.ref id => Option.some id
    | MdItem.sep _ => Option.none)

/-! ## Derived characterizations used in the theorem statements -/

/-- The values of the `reading_order` counter at which the collection
loop of `process_elements` keeps an element, starting the counter at
`k`: a raising box is skipped without advancing the counter, an empty
crop advances the counter without keeping an element, and any other
box both keeps an element at the current counter and advances it. -/
def keptCounters : List LayoutEntry → Nat → List Nat
  | [], _ => []
  | e :: rest, k =>
    match e.coord with
    | CoordOutcome.err => keptCounters rest k
    | CoordOutcome.ok _ true => k :: keptCounters rest (k + 1)
    | CoordOutcome.ok _ false => keptCounters rest (k + 1)

/-! ## Concrete instances for witnesses and counterexamples -/

/-- A markup parser oracle that always raises. -/
def failParse : String → Except String HtmlNode :=
  fun _ => Except.error "boom"

/-- The tree BeautifulSoup produces for the fragment
given in the heading/paragraph example. -/
def hpTree : HtmlNode :=
  HtmlNode.elem "[document]" [] (HtmlForest.ofList
    [HtmlNode.elem "h2" [] (HtmlForest.ofList [HtmlNode.txt "Title"]),
     HtmlNode.elem "p" [] (HtmlForest.ofList [HtmlNode.txt "Body"])])

def hpParse : String → Except String HtmlNode :=
  fun _ => Except.ok hpTree

/-- A one-cell table whose `colspan` attribute is the digit string
zero. -/
def tabZeroTree : HtmlNode :=
  HtmlNode.elem "[document]" [] (HtmlForest.ofList
    [HtmlNode.elem "table" [] (HtmlForest.ofList
      [HtmlNode.elem "tr" [] (HtmlForest.ofList
        [HtmlNode.elem "td" [("colspan", "0")] (HtmlForest.ofList [HtmlNode.txt "x"])])])])

def tabZeroParse : String → Except String HtmlNode :=
  fun _ => Except.ok tabZeroTree

/-- A one-row table with one `colspan="2"` cell (the spec's own table
example). -/
def tabTwoTree : HtmlNode :=
  HtmlNode.elem "[document]" [] (HtmlForest.ofList
    [HtmlNode.elem "table" [] (HtmlForest.ofList
      [HtmlNode.elem "tr" [] (HtmlForest.ofList
        [HtmlNode.elem "td" [("colspan", "2")] (HtmlForest.ofList [HtmlNode.txt "x"])])])])

def tabTwoParse : String → Except String HtmlNode :=
  fun _ => Except.ok tabTwoTree

/-- A figure-filename oracle for single-page runs. -/
def sampleFigName : Nat → String :=
  fun k => "f" ++ toString k ++ ".png"

/-- A figure-filename oracle for multi-page runs. -/
def samplePageFigName : Nat → Nat → String :=
  fun idx k => "p" ++ toString idx ++ "f" ++ toString k ++ ".png"

/-- A zero-area box (the crop at line 216 is empty). -/
def entZero : LayoutEntry :=
  { label := "txt", coord := CoordOutcome.ok [0, 0, 1, 1] false }

/-- An ordinary text box. -/
def entText : LayoutEntry :=
  { label := "txt", coord := CoordOutcome.ok [1, 2, 3, 4] true }

/-- An ordinary figure box. -/
def entFig : LayoutEntry :=
  { label := "fig", coord := CoordOutcome.ok [5, 6, 7, 8] true }

/-- A backend oracle answering every prompt with a padded result
string. -/
def backendPad : List String → Except String (List String) :=
  fun ps => Except.ok (ps.map (fun _ => "  res  "))

/-- A backend oracle whose batch call raises. -/
def backendFail : List String → Except String (List String) :=
  fun _ => Except.error "backend failure"

/-- A page whose batch call succeeds. -/
def pageGood : PageInput :=
  { entries := [entText], recognize := backendPad }

/-- A page whose batch call raises. -/
def pageBad : PageInput :=
  { entries := [entText], recognize := backendFail }

/-- A sample stored element value whose text is an HTML fragment. -/
def sampleVal : ElemVal :=
  { label := "txt"
    bbox := [1, 2, 3, 4]
    text := "<p>x</p>"
    figure_path := Option.none
    reading_order := 0
    parsed_content := Option.none }

/-- A store with two allocated element dictionaries. -/
def sampleStore : Store :=
  { vals := fun _ => sampleVal, next := 2 }

/-- Two one-element pages over the two references of `sampleStore`. -/
def samplePages : List PageData :=
  [{ page_number := 1, elements := [0] }, { page_number := 2, elements := [1] }]

/-- The figure element produced for `entFig` at reading order 0. -/
def sampleFigElement : Element :=
  { label := "fig"
    bbox := [5, 6, 7, 8]
    text := "![Figure](figures/f0.png)"
    figure_path := Option.some "figures/f0.png"
    reading_order := 0 }

/-- The recognized text element produced for `entText` at reading
order 1. -/
def sampleTextElement : Element :=
  { label := "txt"
    bbox := [1, 2, 3, 4]
    text := "res"
    figure_path := Option.none
    reading_order := 1 }

/-!
# Theorems

Helper lemmas first, then one theorem per claim (with a witness or a
counterexample where required).
-/

/-! ## Lemmas about attribute lookup and span parsing -/

theorem mem_of_lookup_eq_some {l : List (String × String)} {k v : String}
    (h : l.lookup k = Option.some v) : (k, v) ∈ l := by
  induction l with
  | nil => simp [List.lookup] at h
  | cons p rest ih =>
    rw [List.lookup] at h
    by_cases hk : k == p.1
    · cases p with
      | mk a b =>
        simp only [hk, if_pos] at h
        simp only [beq_iff_eq] at hk
        simp only [Option.some.injEq] at h
        subst hk
        subst h
        exact List.Mem.head rest
    · simp only [hk, if_neg, Bool.false_eq_true] at h
      exact List.Mem.tail p (ih h)

theorem spanVal_pos {a : List (String × String)}
    (h : a.all (fun p => !(isDigitStr p.2) || (digitsToNat p.2 != 0)) = true)
    (name : String) : 1 ≤ spanVal a name := by
  unfold spanVal
  cases hl : a.lookup name with
  | none => exact Nat.le_refl 1
  | some v =>
    by_cases hd : isDigitStr v = true
    · have hm := mem_of_lookup_eq_some hl
      have := List.all_eq_true.mp h _ hm
      simp only [hd, Bool.not_true, Bool.false_or, bne_iff_ne] at this
      simp only [hd, if_pos]
      exact Nat.one_le_iff_ne_zero.mpr this
    · simp only [hd, if_neg, Bool.false_eq_true]
      exact Nat.le_refl 1

/-! ## Lemmas propagating the no-zero-digit-attribute hypothesis -/

theorem noZero_of_mem_findAllIn (tags : List String) :
    ∀ f : HtmlForest, noZeroDigitAttrIn f = true →
      ∀ n ∈ findAllIn tags f, noZeroDigitAttr n = true
  | HtmlForest.nil, _, n, hn => by simp [findAllIn] at hn
  | HtmlForest.cons (HtmlNode.txt s) rest, h, n, hn => by
    rw [noZeroDigitAttrIn] at h
    rw [findAllIn] at hn
    exact noZero_of_mem_findAllIn tags rest h n hn
  | HtmlForest.cons (HtmlNode.elem t a cs) rest, h, n, hn => by
    rw [noZeroDigitAttrIn] at h
    simp only [Bool.and_eq_true] at h
    rw [findAllIn] at hn
    simp only [List.mem_append] at hn
    rcases hn with (hn | hn) | hn
    · by_cases ht : t ∈ tags
      · simp only [ht, if_pos, List.mem_singleton] at hn
        subst hn
        unfold noZeroDigitAttr
        simp [noZeroDigitAttrIn, h.1.1, h.1.2]
      · simp [ht] at hn
    · exact noZero_of_mem_findAllIn tags cs h.1.2 n hn
    · exact noZero_of_mem_findAllIn tags rest h.2 n hn

theorem noZero_findAll {n : HtmlNode} (h : noZeroDigitAttr n = true)
    (tags : List String) : ∀ m ∈ n.findAll tags, noZeroDigitAttr m = true := by
  cases n with
  | txt s => intro m hm; simp [HtmlNode.findAll] at hm
  | elem t a cs =>
    unfold noZeroDigitAttr noZeroDigitAttrIn at h
    simp only [Bool.and_eq_true] at h
    exact noZero_of_mem_findAllIn tags cs h.1.2

theorem noZero_attrs {n : HtmlNode} (h : noZeroDigitAttr n = true) :
    n.attrsOf.all (fun p => !(isDigitStr p.2) || (digitsToNat p.2 != 0)) = true := by
  cases n with
  | txt s => rfl
  | elem t a cs =>
    unfold noZeroDigitAttr noZeroDigitAttrIn at h
    simp only [Bool.and_eq_true] at h
    exact h.1.1

theorem tableOf_cells {tab : HtmlNode} (h : noZeroDigitAttr tab = true) :
    ∀ row ∈ tableOf tab, ∀ c ∈ row, 1 ≤ c.colspan ∧ 1 ≤ c.rowspan := by
  intro row hrow c hc
  unfold tableOf at hrow
  rcases List.mem_map.mp hrow with ⟨tr, htr, hrw⟩
  subst hrw
  unfold rowOf at hc
  rcases List.mem_map.mp hc with ⟨cell, hcell, hcl⟩
  subst hcl
  have htrZ := noZero_findAll h ["tr"] tr htr
  have hcellZ := noZero_findAll htrZ ["td", "th"] cell hcell
  have hall := noZero_attrs hcellZ
  exact ⟨spanVal_pos hall "colspan", spanVal_pos hall "rowspan"⟩

/-! ## Claims C5, C10, C7 — early exits and the error fallback -/

/-- Claim C5: for every input string that does not contain both an
opening and a closing angle bracket, `parse_html_to_json` returns a
text node whose content is the original input string unchanged. -/
theorem claim5_plain_text (parse : String → Except String HtmlNode) (s : String)
    (h : ¬ (pyContains s '<' ∧ pyContains s '>')) :
    parse_html_to_json parse (PyInput.str s) =
      ParsedNode.textNode (PyInput.str s) Option.none := by
  by_cases hs : s = "" <;> simp [parse_html_to_json, hs, h]

/-- Witness for C5: the plain string given in the spec's example. -/
theorem claim5_witness :
    ¬ (pyContains "hello" '<' ∧ pyContains "hello" '>') ∧
    parse_html_to_json failParse (PyInput.str "hello") =
      ParsedNode.textNode (PyInput.str "hello") Option.none :=
  ⟨by decide, claim5_plain_text failParse "hello" (by decide)⟩

/-- Claim C10: on `None`, the empty string, or any non-string value,
`parse_html_to_json` returns a text node carrying that value unchanged
(and no error marker), for any behaviour of the markup parser. -/
theorem claim10_falsy_input (parse : String → Except String HtmlNode) (inp : PyInput)
    (h : inp = PyInput.none ∨ inp = PyInput.str "" ∨ inp.isStr = false) :
    parse_html_to_json parse inp = ParsedNode.textNode inp Option.none := by
  cases inp with
  | none => rfl
  | other b => rfl
  | str s =>
    rcases h with h | h | h
    · exact absurd h (by simp)
    · cases h; rfl
    · exact absurd h (by simp [PyInput.isStr])

/-- Witness for C10: the `None` input. -/
theorem claim10_witness :
    parse_html_to_json failParse PyInput.none =
      ParsedNode.textNode PyInput.none Option.none :=
  claim10_falsy_input failParse PyInput.none (Or.inl rfl)

/-- Claim C7: when the input passes the angle-bracket guard and the
underlying markup parser raises, `parse_html_to_json` does not
propagate the exception: it returns a text node with the original
input content and the raised message in the error marker field. -/
theorem claim7_parse_error (parse : String → Except String HtmlNode) (s e : String)
    (h1 : pyContains s '<' = true) (h2 : pyContains s '>' = true)
    (hp : parse s = Except.error e) :
    parse_html_to_json parse (PyInput.str s) =
      ParsedNode.textNode (PyInput.str s) (Option.some e) := by
  have hs : s ≠ "" := by rintro rfl; exact absurd h1 (by decide)
  simp [parse_html_to_json, hs, h1, h2, hp]

/-- Witness for C7: a fragment whose parse raises. -/
theorem claim7_witness :
    parse_html_to_json failParse (PyInput.str "<p>x") =
      ParsedNode.textNode (PyInput.str "<p>x") (Option.some "boom") :=
  claim7_parse_error failParse "<p>x" "boom" (by decide) (by decide) rfl

/-! ## Claim C6 — mixed structured content in scan order -/

/-- Claim C6: for a parsed fragment with no table element and more
than one list/heading/paragraph element, the result is mixed content
listing all lists first, then all headings, then all paragraphs, each
group in document order. -/
theorem claim6_mixed_content (parse : String → Except String HtmlNode)
    (s : String) (t : HtmlNode)
    (h1 : pyContains s '<' = true) (h2 : pyContains s '>' = true)
    (hp : parse s = Except.ok t)
    (hnt : t.findAll ["table"] = [])
    (hlen : 1 < (structuredContent t).length) :
    parse_html_to_json parse (PyInput.str s) =
      ParsedNode.mixedContent ((t.findAll ["ul", "ol"]).map listOf
        ++ (t.findAll ["h1", "h2", "h3", "h4", "h5", "h6"]).map headingOf
        ++ (t.findAll ["p"]).map paraOf) := by
  have hs : s ≠ "" := by rintro rfl; exact absurd h1 (by decide)
  cases hsc : structuredContent t with
  | nil => rw [hsc] at hlen; simp at hlen
  | cons e tl =>
    cases tl with
    | nil => rw [hsc] at hlen; simp at hlen
    | cons e2 tl2 =>
      have : ParsedNode.mixedContent ((t.findAll ["ul", "ol"]).map listOf
          ++ (t.findAll ["h1", "h2", "h3", "h4", "h5", "h6"]).map headingOf
          ++ (t.findAll ["p"]).map paraOf) =
          ParsedNode.mixedContent (e :: e2 :: tl2) := by
        rw [← hsc]; rfl
      rw [this]
      simp [parse_html_to_json, hs, h1, h2, hp, hnt, hsc]

/-- Witness for C6: the spec's heading/paragraph example. -/
theorem claim6_witness :
    parse_html_to_json hpParse (PyInput.str "<h2>Title</h2><p>Body</p>") =
      ParsedNode.mixedContent [StructElem.heading 2 "Title", StructElem.paragraph "Body"] := by
  rw [claim6_mixed_content hpParse "<h2>Title</h2><p>Body</p>" hpTree
    (by decide) (by decide) rfl rfl (by decide)]
  rfl

/-! ## Claim C4 — colspan/rowspan parsing -/

/-- Counterexample to C4 as stated: a cell whose `colspan` attribute is
the digit string zero passes Python's `isdigit` test and is parsed as
the integer 0, which is not a positive integer. -/
theorem claim4_counterexample :
    parse_html_to_json tabZeroParse
      (PyInput.str "<table><tr><td colspan=\"0\">x</td></tr></table>") =
      ParsedNode.tableNode [[{ content := "x", tag := "td", colspan := 0, rowspan := 1 }]] ∧
    ¬ 1 ≤ (Cell.mk "x" "td" 0 1).colspan :=
  ⟨rfl, by decide⟩

/-- Claim C4 as amended: `colspan`/`rowspan` are parsed from the
attribute when it is present and a digit string (a digit string of
numeric value zero yields 0) and default to 1 when absent or
non-numeric; whenever no attribute value in the parsed tree is a digit
string of numeric value zero, every cell in the output has
`colspan ≥ 1` and `rowspan ≥ 1`. -/
theorem claim4_amended (parse : String → Except String HtmlNode) (inp : PyInput)
    (h : ∀ s t, inp = PyInput.str s → parse s = Except.ok t → noZeroDigitAttr t = true) :
    ∀ c ∈ (parse_html_to_json parse inp).cells, 1 ≤ c.colspan ∧ 1 ≤ c.rowspan := by
  cases inp with
  | none => intro c hc; simp [parse_html_to_json, ParsedNode.cells] at hc
  | other b => intro c hc; simp [parse_html_to_json, ParsedNode.cells] at hc
  | str s =>
    by_cases hs : s = ""
    · intro c hc; simp [parse_html_to_json, hs, ParsedNode.cells] at hc
    by_cases hb : pyContains s '<' ∧ pyContains s '>'
    case neg =>
      intro c hc; simp [parse_html_to_json, hs, hb, ParsedNode.cells] at hc
    cases hp : parse s with
    | error e =>
      intro c hc; simp [parse_html_to_json, hs, hb, hp, ParsedNode.cells] at hc
    | ok t =>
      have ht := h s t rfl hp
      have hcells : ∀ tab ∈ t.findAll ["table"], ∀ row ∈ tableOf tab,
          ∀ c ∈ row, 1 ≤ c.colspan ∧ 1 ≤ c.rowspan :=
        fun tab htab => tableOf_cells (noZero_findAll ht ["table"] tab htab)
      intro c hc
      rcases htb : t.findAll ["table"] with _ | ⟨tab, tabs⟩
      · have hres : (parse_html_to_json parse (PyInput.str s)).cells = [] := by
          rcases hsc : structuredContent t with _ | ⟨e, _ | ⟨e2, tl2⟩⟩ <;>
            simp [parse_html_to_json, hs, hb, hp, htb, hsc, ParsedNode.cells]
        rw [hres] at hc
        simp at hc
      · cases tabs with
        | nil =>
          have hres : parse_html_to_json parse (PyInput.str s) =
              ParsedNode.tableNode (tableOf tab) := by
            simp [parse_html_to_json, hs, hb, hp, htb]
          rw [hres] at hc
          simp only [ParsedNode.cells, List.mem_flatten] at hc
          rcases hc with ⟨row, hrow, hcrow⟩
          exact hcells tab (by rw [htb]; exact List.Mem.head _) row hrow c hcrow
        | cons tab2 tabs2 =>
          have hres : parse_html_to_json parse (PyInput.str s) =
              ParsedNode.multipleTables ((tab :: tab2 :: tabs2).map tableOf) := by
            simp [parse_html_to_json, hs, hb, hp, htb]
          rw [hres] at hc
          simp only [ParsedNode.cells] at hc
          rcases List.mem_flatten.mp hc with ⟨fl, hflm, hcfl⟩
          rcases List.mem_map.mp hflm with ⟨x, hx, hfl⟩
          rcases List.mem_map.mp hx with ⟨tbl, htblm, hxe⟩
          subst hxe
          subst hfl
          rcases List.mem_flatten.mp hcfl with ⟨row, hrow, hcrow⟩
          exact hcells tbl (by rw [htb]; exact htblm) row hrow c hcrow

/-- Witness for C4 as amended: the spec's own `colspan="2"` example,
evaluated at its one output cell. -/
theorem claim4_witness :
    1 ≤ (Cell.mk "x" "td" 2 1).colspan ∧ 1 ≤ (Cell.mk "x" "td" 2 1).rowspan :=
  claim4_amended tabTwoParse
    (PyInput.str "<table><tr><td colspan=\"2\">x</td></tr></table>")
    (fun s t _ ht => by
      have h := ht
      simp only [tabTwoParse, Except.ok.injEq] at h
      rw [← h]
      rfl)
    (Cell.mk "x" "td" 2 1) (by decide)

/-! ## Lemmas about the element-collection loop and batch assembly -/

theorem figureText_ne_empty (x : String) : ("![Figure](figures/" ++ x ++ ")" : String) ≠ "" := by
  intro h
  have h2 := congrArg String.data h
  rw [String.data_append, String.data_append] at h2
  simp at h2

theorem attachResults_eq : ∀ (rs : List String) (qs : List QueuedElem),
    rs.length = qs.length →
    attachResults rs qs = Except.ok (List.zipWith mkRecognized qs rs)
  | [], qs, _ => by cases qs <;> rfl
  | r :: rs, [], h => by simp at h
  | r :: rs, q :: qs, h => by
    rw [attachResults, attachResults_eq rs qs (by simpa using h)]
    rfl

theorem attachResults_mem : ∀ (rs : List String) (qs : List QueuedElem) (l : List Element),
    attachResults rs qs = Except.ok l →
    ∀ el ∈ l, ∃ q, q ∈ qs ∧ ∃ r, el = mkRecognized q r
  | [], _, l, h => by
    rw [attachResults] at h
    cases h
    intro el hel
    simp at hel
  | r :: rs, [], l, h => by
    rw [attachResults] at h
    cases h
  | r :: rs, q :: qs, l, h => by
    rw [attachResults] at h
    cases hat : attachResults rs qs with
    | error e => rw [hat] at h; cases h
    | ok tl =>
      rw [hat] at h
      cases h
      intro el hel
      rcases List.mem_cons.mp hel with hel | hel
      · exact ⟨q, List.Mem.head qs, r, hel⟩
      · rcases attachResults_mem rs qs tl hat el hel with ⟨q2, hq2, r2, he2⟩
        exact ⟨q2, List.Mem.tail q hq2, r2, he2⟩

theorem assembleResults_eq (recognize : List String → Except String (List String))
    (figs : List Element) (qs : List QueuedElem) (rs : List String)
    (hrec : recognize (qs.map (fun q => q.prompt)) = Except.ok rs)
    (hlen : rs.length = qs.length) :
    assembleResults recognize figs qs =
      Except.ok (List.insertionSort roLE (figs ++ List.zipWith mkRecognized qs rs)) := by
  cases qs with
  | nil =>
    have : rs = [] := List.length_eq_zero.mp hlen
    subst this
    rw [assembleResults]
    simp
  | cons q qs =>
    simp only [assembleResults, hrec, attachResults_eq rs (q :: qs) hlen, Except.map]

theorem process_elements_eq (figName : Nat → String)
    (recognize : List String → Except String (List String))
    (entries : List LayoutEntry) (rs : List String)
    (hrec : recognize ((collectElements figName entries 0).2.map (fun q => q.prompt)) = Except.ok rs)
    (hlen : rs.length = (collectElements figName entries 0).2.length) :
    process_elements figName recognize entries =
      Except.ok (List.insertionSort roLE ((collectElements figName entries 0).1
        ++ List.zipWith mkRecognized (collectElements figName entries 0).2 rs)) := by
  rw [process_elements]
  exact assembleResults_eq recognize _ _ rs hrec hlen

theorem collect_fig_mem (figName : Nat → String) :
    ∀ (es : List LayoutEntry) (k : Nat) (el : Element),
      el ∈ (collectElements figName es k).1 →
      el.label = "fig" ∧ el.figure_path ≠ Option.none ∧ el.text ≠ ""
  | [], k, el, h => by simp [collectElements] at h
  | e :: rest, k, el, h => by
    rcases hco : e.coord with _ | ⟨bbox, ne⟩
    · rw [collectElements, hco] at h
      exact collect_fig_mem figName rest k el h
    · cases ne with
      | false =>
        rw [collectElements, hco] at h
        simp only [Bool.false_eq_true, if_neg, not_false_iff] at h
        exact collect_fig_mem figName rest (k + 1) el h
      | true =>
        rw [collectElements, hco] at h
        by_cases hl : e.label = "fig"
        · simp only [hl, if_pos] at h
          rcases List.mem_cons.mp h with hel | hel
          · subst hel
            exact ⟨rfl, by simp, figureText_ne_empty (figName k)⟩
          · exact collect_fig_mem figName rest (k + 1) el hel
        · simp only [hl, if_neg, not_false_iff, if_pos] at h
          exact collect_fig_mem figName rest (k + 1) el h

theorem collect_queued_mem (figName : Nat → String) :
    ∀ (es : List LayoutEntry) (k : Nat) (q : QueuedElem),
      q ∈ (collectElements figName es k).2 → q.label ≠ "fig"
  | [], k, q, h => by simp [collectElements] at h
  | e :: rest, k, q, h => by
    rcases hco : e.coord with _ | ⟨bbox, ne⟩
    · rw [collectElements, hco] at h
      exact collect_queued_mem figName rest k q h
    · cases ne with
      | false =>
        rw [collectElements, hco] at h
        simp only [Bool.false_eq_true, if_neg, not_false_iff] at h
        exact collect_queued_mem figName rest (k + 1) q h
      | true =>
        rw [collectElements, hco] at h
        by_cases hl : e.label = "fig"
        · simp only [hl, if_pos] at h
          exact collect_queued_mem figName rest (k + 1) q h
        · simp only [hl, if_neg, not_false_iff, if_pos] at h
          rcases List.mem_cons.mp h with hq | hq
          · subst hq; exact hl
          · exact collect_queued_mem figName rest (k + 1) q hq

theorem collect_ro_perm (figName : Nat → String) :
    ∀ (es : List LayoutEntry) (k : Nat),
      List.Perm ((collectElements figName es k).1.map Element.reading_order
        ++ (collectElements figName es k).2.map QueuedElem.reading_order)
        (keptCounters es k)
  | [], k => by simp [collectElements, keptCounters]
  | e :: rest, k => by
    rcases hco : e.coord with _ | ⟨bbox, ne⟩
    · rw [collectElements, keptCounters, hco]
      exact collect_ro_perm figName rest k
    · cases ne with
      | false =>
        rw [collectElements, keptCounters, hco]
        simp only [Bool.false_eq_true, if_neg, not_false_iff]
        exact collect_ro_perm figName rest (k + 1)
      | true =>
        rw [collectElements, keptCounters, hco]
        by_cases hl : e.label = "fig"
        · simp only [hl, if_pos, List.map_cons, List.cons_append]
          exact (collect_ro_perm figName rest (k + 1)).cons k
        · simp only [hl, if_neg, not_false_iff, if_pos, List.map_cons]
          exact List.perm_middle.trans ((collect_ro_perm figName rest (k + 1)).cons k)

theorem zipWith_ro : ∀ (qs : List QueuedElem) (rs : List String),
    rs.length = qs.length →
    (List.zipWith mkRecognized qs rs).map Element.reading_order =
      qs.map QueuedElem.reading_order
  | [], rs, _ => by simp
  | q :: qs, [], h => by simp at h
  | q :: qs, r :: rs, h => by
    simp only [List.zipWith, List.map_cons]
    rw [zipWith_ro qs rs (by simpa using h)]
    rfl

theorem keptCounters_le : ∀ (es : List LayoutEntry) (k x : Nat),
    x ∈ keptCounters es k → k ≤ x
  | [], k, x, h => by simp [keptCounters] at h
  | e :: rest, k, x, h => by
    rcases hco : e.coord with _ | ⟨bbox, ne⟩
    · rw [keptCounters, hco] at h
      exact keptCounters_le rest k x h
    · cases ne with
      | false =>
        rw [keptCounters, hco] at h
        exact Nat.le_of_succ_le (keptCounters_le rest (k + 1) x h)
      | true =>
        rw [keptCounters, hco] at h
        rcases List.mem_cons.mp h with hx | hx
        · subst hx; exact Nat.le_refl x
        · exact Nat.le_of_succ_le (keptCounters_le rest (k + 1) x hx)

theorem keptCounters_pairwise : ∀ (es : List LayoutEntry) (k : Nat),
    List.Pairwise (fun a b => a < b) (keptCounters es k)
  | [], k => by simp [keptCounters]
  | e :: rest, k => by
    rcases hco : e.coord with _ | ⟨bbox, ne⟩
    · rw [keptCounters, hco]
      exact keptCounters_pairwise rest k
    · cases ne with
      | false =>
        rw [keptCounters, hco]
        exact keptCounters_pairwise rest (k + 1)
      | true =>
        rw [keptCounters, hco]
        exact List.Pairwise.cons
          (fun x hx => Nat.lt_of_succ_le (keptCounters_le rest (k + 1) x hx))
          (keptCounters_pairwise rest (k + 1))

theorem keptCounters_range : ∀ (es : List LayoutEntry) (k : Nat),
    (∀ e ∈ es, ∀ b, e.coord ≠ CoordOutcome.ok b false) →
    keptCounters es k = List.range' k ((keptCounters es k).length)
  | [], k, _ => by simp [keptCounters]
  | e :: rest, k, h => by
    rcases hco : e.coord with _ | ⟨bbox, ne⟩
    · rw [keptCounters, hco]
      exact keptCounters_range rest k (fun e2 he2 => h e2 (List.Mem.tail e he2))
    · cases ne with
      | false => exact absurd hco (h e (List.Mem.head rest) bbox)
      | true =>
        rw [keptCounters, hco]
        rw [keptCounters_range rest (k + 1) (fun e2 he2 => h e2 (List.Mem.tail e he2))]
        simp [List.range'_succ]

/-! ## Claim C2 — which fields are populated -/

/-- Counterexample to C2 as stated: a figure element is produced with
both its text and its figure path populated, so it does not have
exactly one of the two. -/
theorem claim2_counterexample :
    process_elements sampleFigName backendFail [entFig] = Except.ok [sampleFigElement] ∧
    sampleFigElement.text ≠ "" ∧ sampleFigElement.figure_path ≠ Option.none :=
  ⟨rfl, by decide, by decide⟩

/-- Claim C2 as amended: in every successful `process_elements` run,
an element's `figure_path` is present exactly when its label is `fig`,
and every figure element additionally has nonempty text (the markdown
image reference), so figures carry both fields. -/
theorem claim2_amended (figName : Nat → String)
    (recognize : List String → Except String (List String))
    (entries : List LayoutEntry) (out : List Element)
    (h : process_elements figName recognize entries = Except.ok out) :
    ∀ el ∈ out, (el.figure_path ≠ Option.none ↔ el.label = "fig") ∧
      (el.label = "fig" → el.text ≠ "") := by
  have main : ∀ el, (el ∈ (collectElements figName entries 0).1 ∨
      (∃ q, q ∈ (collectElements figName entries 0).2 ∧ ∃ r, el = mkRecognized q r)) →
      (el.figure_path ≠ Option.none ↔ el.label = "fig") ∧
      (el.label = "fig" → el.text ≠ "") := by
    intro el hel
    rcases hel with hel | ⟨q, hq, r, hel⟩
    · rcases collect_fig_mem figName entries 0 el hel with ⟨h1, h2, h3⟩
      exact ⟨⟨fun _ => h1, fun _ => h2⟩, fun _ => h3⟩
    · subst hel
      have hq2 := collect_queued_mem figName entries 0 q hq
      constructor
      · constructor
        · intro hfp; exact absurd rfl hfp
        · intro hlb; exact absurd hlb hq2
      · intro hlb; exact absurd hlb hq2
  rw [process_elements] at h
  rcases hqs : (collectElements figName entries 0).2 with _ | ⟨q0, qs0⟩
  · rw [hqs, assembleResults] at h
    simp only [Except.ok.injEq] at h
    intro el hel
    rw [← h] at hel
    have hmem := (List.perm_insertionSort roLE (collectElements figName entries 0).1).mem_iff.mp hel
    exact main el (Or.inl hmem)
  · rw [hqs, assembleResults] at h
    cases hrec : recognize ((q0 :: qs0).map (fun q => q.prompt)) with
    | error e => simp only [hrec] at h; exact Except.noConfusion h
    | ok rs =>
      simp only [hrec] at h
      cases hat : attachResults rs (q0 :: qs0) with
      | error e => simp only [hat, Except.map] at h; exact Except.noConfusion h
      | ok recs =>
        simp only [hat, Except.map, Except.ok.injEq] at h
        intro el hel
        rw [← h] at hel
        have hmem := (List.perm_insertionSort roLE
          ((collectElements figName entries 0).1 ++ recs)).mem_iff.mp hel
        rcases List.mem_append.mp hmem with hmem | hmem
        · exact main el (Or.inl hmem)
        · rcases attachResults_mem rs (q0 :: qs0) recs hat el hmem with ⟨q, hq, r, he⟩
          exact main el (Or.inr ⟨q, hqs ▸ hq, r, he⟩)

/-- Witness for C2 as amended: a run with one figure and one text box,
evaluated at its figure element. -/
theorem claim2_witness :
    (sampleFigElement.figure_path ≠ Option.none ↔ sampleFigElement.label = "fig") ∧
    sampleFigElement.text ≠ "" :=
  ⟨(claim2_amended sampleFigName backendPad [entFig, entText]
      [sampleFigElement, sampleTextElement] rfl sampleFigElement
      (List.Mem.head _)).1,
   (claim2_amended sampleFigName backendPad [entFig, entText]
      [sampleFigElement, sampleTextElement] rfl sampleFigElement
      (List.Mem.head _)).2 rfl⟩

/-! ## Claim C3 — reading-order values -/

/-- Counterexample to C3 as stated: a zero-area box is dropped but
still advances the reading-order counter (line 248 runs even when the
crop is empty), so the surviving element of this two-box page has
reading order 1 and the values are not `0..n-1`. -/
theorem claim3_counterexample :
    process_elements sampleFigName backendPad [entZero, entText] =
      Except.ok [sampleTextElement] ∧
    sampleTextElement.reading_order = 1 ∧
    [sampleTextElement].map Element.reading_order ≠
      List.range ([sampleTextElement]).length :=
  ⟨rfl, rfl, by decide⟩

/-- Claim C3 as amended: in a successful length-preserving run, the
output reading-order values are exactly the counter values at which
the loop kept a box — strictly increasing, with no repeats; they are
exactly `0..n-1` whenever no successfully mapped box was dropped for
having an empty crop (boxes whose coordinate step raises do not
advance the counter, but dropped zero-area boxes do, leaving gaps). -/
theorem claim3_amended (figName : Nat → String)
    (recognize : List String → Except String (List String))
    (entries : List LayoutEntry) (rs : List String)
    (hrec : recognize ((collectElements figName entries 0).2.map (fun q => q.prompt)) = Except.ok rs)
    (hlen : rs.length = (collectElements figName entries 0).2.length) :
    ∃ out, process_elements figName recognize entries = Except.ok out ∧
      out.map Element.reading_order = keptCounters entries 0 ∧
      List.Pairwise (fun a b => a < b) (out.map Element.reading_order) ∧
      ((∀ e ∈ entries, ∀ b, e.coord ≠ CoordOutcome.ok b false) →
        out.map Element.reading_order = List.range out.length) := by
  refine ⟨_, process_elements_eq figName recognize entries rs hrec hlen, ?_⟩
  have hmap : (List.insertionSort roLE ((collectElements figName entries 0).1
      ++ List.zipWith mkRecognized (collectElements figName entries 0).2 rs)).map
        Element.reading_order = keptCounters entries 0 := by
    have hperm : List.Perm ((List.insertionSort roLE ((collectElements figName entries 0).1
        ++ List.zipWith mkRecognized (collectElements figName entries 0).2 rs)).map
          Element.reading_order) (keptCounters entries 0) := by
      have h1 := (List.perm_insertionSort roLE ((collectElements figName entries 0).1
        ++ List.zipWith mkRecognized (collectElements figName entries 0).2 rs)).map
          Element.reading_order
      rw [List.map_append, zipWith_ro (collectElements figName entries 0).2 rs hlen] at h1
      exact h1.trans (collect_ro_perm figName entries 0)
    have hs1 : List.Sorted (fun a b : Nat => a ≤ b)
        ((List.insertionSort roLE ((collectElements figName entries 0).1
          ++ List.zipWith mkRecognized (collectElements figName entries 0).2 rs)).map
            Element.reading_order) :=
      List.Pairwise.map Element.reading_order (fun a b hab => hab)
        (List.sorted_insertionSort roLE _)
    have hs2 : List.Sorted (fun a b : Nat => a ≤ b) (keptCounters entries 0) :=
      (keptCounters_pairwise entries 0).imp (fun hab => Nat.le_of_lt hab)
    exact List.eq_of_perm_of_sorted hperm hs1 hs2
  refine ⟨hmap, ?_, ?_⟩
  · rw [hmap]
    exact keptCounters_pairwise entries 0
  · intro hnz
    have hlen2 : (List.insertionSort roLE ((collectElements figName entries 0).1
        ++ List.zipWith mkRecognized (collectElements figName entries 0).2 rs)).length =
        (keptCounters entries 0).length := by
      rw [← hmap, List.length_map]
    rw [hmap, keptCounters_range entries 0 hnz, List.range_eq_range', hlen2]

/-- Witness for C3 as amended: a figure box followed by a text box,
with a length-preserving backend. -/
theorem claim3_witness :
    ∃ out, process_elements sampleFigName backendPad [entFig, entText] = Except.ok out ∧
      out.map Element.reading_order = keptCounters [entFig, entText] 0 ∧
      List.Pairwise (fun a b => a < b) (out.map Element.reading_order) ∧
      ((∀ e ∈ [entFig, entText], ∀ b, e.coord ≠ CoordOutcome.ok b false) →
        out.map Element.reading_order = List.range out.length) :=
  claim3_amended sampleFigName backendPad [entFig, entText] ["  res  "] rfl rfl

/-! ## Claim C9 — zipping batch results back and the final sort -/

/-- Claim C9: when the backend returns exactly one string per queued
element, the result is a permutation of the figure elements together
with the queued elements zipped positionally with their trimmed result
strings (each keeping its own label, bbox and reading order), and the
returned list is sorted by reading order ascending. -/
theorem claim9_zip_and_sort (figName : Nat → String)
    (recognize : List String → Except String (List String))
    (entries : List LayoutEntry) (rs : List String)
    (hrec : recognize ((collectElements figName entries 0).2.map (fun q => q.prompt)) = Except.ok rs)
    (hlen : rs.length = (collectElements figName entries 0).2.length) :
    ∃ out, process_elements figName recognize entries = Except.ok out ∧
      List.Perm out ((collectElements figName entries 0).1
        ++ List.zipWith mkRecognized (collectElements figName entries 0).2 rs) ∧
      List.Sorted roLE out :=
  ⟨_, process_elements_eq figName recognize entries rs hrec hlen,
    List.perm_insertionSort roLE _, List.sorted_insertionSort roLE _⟩

/-- Witness for C9: the same two-box page, showing the backend result
string is trimmed onto the queued text element. -/
theorem claim9_witness :
    ∃ out, process_elements sampleFigName backendPad [entFig, entText] = Except.ok out ∧
      List.Perm out ((collectElements sampleFigName [entFig, entText] 0).1
        ++ List.zipWith mkRecognized (collectElements sampleFigName [entFig, entText] 0).2
          ["  res  "]) ∧
      List.Sorted roLE out :=
  claim9_zip_and_sort sampleFigName backendPad [entFig, entText] ["  res  "] rfl rfl

/-! ## Claim C1 — a failing page aborts the whole PDF -/

theorem processPages_prefix_err (figName : Nat → Nat → String) (p : PageInput)
    (post : List PageInput) (e : String) :
    ∀ (pre : List PageInput) (idx : Nat),
      (∀ i (h : i < pre.length), ∃ els,
        process_elements (figName (idx + i)) (pre.get ⟨i, h⟩).recognize
          (pre.get ⟨i, h⟩).entries = Except.ok els) →
      process_elements (figName (idx + pre.length)) p.recognize p.entries = Except.error e →
      processPages figName (pre ++ p :: post) idx = Except.error e
  | [], idx, _, hfail => by
    rw [List.nil_append, processPages]
    rw [List.length_nil, Nat.add_zero] at hfail
    rw [hfail]
  | q :: pre, idx, hpre, hfail => by
    rcases hpre 0 (Nat.succ_pos pre.length) with ⟨els, hq⟩
    rw [Nat.add_zero] at hq
    have hq2 : process_elements (figName idx) q.recognize q.entries = Except.ok els := hq
    have hrest : processPages figName (pre ++ p :: post) (idx + 1) = Except.error e := by
      apply processPages_prefix_err figName p post e pre (idx + 1)
      · intro i h
        rcases hpre (i + 1) (Nat.succ_lt_succ h) with ⟨els2, hels2⟩
        refine ⟨els2, ?_⟩
        have harr : idx + (i + 1) = idx + 1 + i := by omega
        rw [harr] at hels2
        exact hels2
      · have harr : idx + (q :: pre).length = idx + 1 + pre.length := by
          simp [List.length_cons]; omega
        rw [harr] at hfail
        exact hfail
    rw [List.cons_append, processPages]
    simp only [hq2, hrest]
    rfl

/-- Counterexample to C1 as stated: with a two-page PDF whose second
page's batch call raises, `process_document` propagates the exception
for the whole document — it returns no aggregated result at all, so
page 1's elements are not preserved and page 2 is not marked failed. -/
theorem claim1_counterexample :
    process_document_pdf samplePageFigName [pageGood, pageBad] =
      Except.error "backend failure" ∧
    ∀ res, process_document_pdf samplePageFigName [pageGood, pageBad] ≠ Except.ok res := by
  refine ⟨rfl, ?_⟩
  intro res h
  have h2 : (Except.error "backend failure" : Except String (List PageResult)) =
      Except.ok res := h
  exact Except.noConfusion h2

/-- Claim C1 as amended: when pages before page k all process
successfully and page k's batch call raises, `process_document` on the
PDF raises for the whole document (returns that page's error),
discarding the earlier pages' results instead of aggregating them. -/
theorem claim1_amended (figName : Nat → Nat → String) (pre : List PageInput)
    (p : PageInput) (post : List PageInput) (e : String)
    (hpre : ∀ i (h : i < pre.length), ∃ els,
      process_elements (figName i) (pre.get ⟨i, h⟩).recognize
        (pre.get ⟨i, h⟩).entries = Except.ok els)
    (hfail : process_elements (figName pre.length) p.recognize p.entries = Except.error e) :
    process_document_pdf figName (pre ++ p :: post) = Except.error e := by
  have h0 : processPages figName (pre ++ p :: post) 0 = Except.error e := by
    apply processPages_prefix_err figName p post e pre 0
    · intro i h
      rcases hpre i h with ⟨els, hels⟩
      exact ⟨els, by rw [Nat.zero_add]; exact hels⟩
    · rw [Nat.zero_add]
      exact hfail
  cases hpp : pre ++ p :: post with
  | nil => exact absurd hpp (by simp)
  | cons a as =>
    rw [hpp] at h0
    rw [process_document_pdf]
    exact h0

/-- Witness for C1 as amended: one good page followed by one failing
page. -/
theorem claim1_witness :
    process_document_pdf samplePageFigName ([pageGood] ++ pageBad :: []) =
      Except.error "backend failure" :=
  claim1_amended samplePageFigName [pageGood] pageBad [] "backend failure"
    (fun i h => by
      have h1 : i < 1 := by simpa using h
      have hi : i = 0 := by omega
      subst hi
      exact ⟨_, rfl⟩)
    rfl

/-! ## Claim C8 — saving mutates only fresh copies -/

theorem copyParseStep_next (parse : String → Except String HtmlNode)
    (s : Store) (id : Nat) : (copyParseStep parse s id).1.next = s.next + 1 := by
  rw [copyParseStep]
  split <;> rfl

theorem copyParseStep_vals (parse : String → Except String HtmlNode)
    (s : Store) (id n : Nat) (h : n < s.next) :
    (copyParseStep parse s id).1.vals n = s.vals n := by
  have hne : n ≠ s.next := Nat.ne_of_lt h
  rw [copyParseStep]
  split
  · simp [setParsed, deepcopyElem, hne]
  · simp [deepcopyElem, hne]

theorem copyAndParseList_frame (parse : String → Except String HtmlNode) :
    ∀ (ids : List Nat) (s : Store),
      s.next ≤ (copyAndParseList parse s ids).1.next ∧
      ∀ n, n < s.next → (copyAndParseList parse s ids).1.vals n = s.vals n
  | [], s => ⟨Nat.le_refl s.next, fun _ _ => rfl⟩
  | id :: rest, s => by
    rw [copyAndParseList]
    have hnext := copyParseStep_next parse s id
    rcases copyAndParseList_frame parse rest (copyParseStep parse s id).1 with ⟨ih1, ih2⟩
    constructor
    · calc s.next ≤ s.next + 1 := Nat.le_succ s.next
        _ = (copyParseStep parse s id).1.next := hnext.symm
        _ ≤ _ := ih1
    · intro n hn
      have hn2 : n < (copyParseStep parse s id).1.next := by
        rw [hnext]; exact Nat.lt_succ_of_lt hn
      rw [ih2 n hn2, copyParseStep_vals parse s id n hn]

theorem deepcopyList_frame : ∀ (ids : List Nat) (s : Store),
    s.next ≤ (deepcopyList s ids).next ∧
    ∀ n, n < s.next → (deepcopyList s ids).vals n = s.vals n
  | [], s => ⟨Nat.le_refl s.next, fun _ _ => rfl⟩
  | id :: rest, s => by
    rw [deepcopyList]
    rcases deepcopyList_frame rest (deepcopyElem s id).1 with ⟨ih1, ih2⟩
    have hnext : (deepcopyElem s id).1.next = s.next + 1 := rfl
    constructor
    · calc s.next ≤ s.next + 1 := Nat.le_succ s.next
        _ = (deepcopyElem s id).1.next := hnext.symm
        _ ≤ _ := ih1
    · intro n hn
      have hn2 : n < (deepcopyElem s id).1.next := by
        rw [hnext]; exact Nat.lt_succ_of_lt hn
      rw [ih2 n hn2]
      have hne : n ≠ s.next := Nat.ne_of_lt hn
      simp [deepcopyElem, hne]

theorem save_combined_loop_frame (parse : String → Except String HtmlNode) :
    ∀ (pages : List PageData) (s : Store),
      s.next ≤ (save_combined_loop parse s pages).1.next ∧
      ∀ n, n < s.next → (save_combined_loop parse s pages).1.vals n = s.vals n
  | [], s => ⟨Nat.le_refl s.next, fun _ _ => rfl⟩
  | p :: rest, s => by
    rw [save_combined_loop]
    rcases deepcopyList_frame p.elements s with ⟨hd1, hd2⟩
    rcases copyAndParseList_frame parse p.elements (deepcopyList s p.elements) with ⟨hc1, hc2⟩
    rcases save_combined_loop_frame parse rest
      (copyAndParseList parse (deepcopyList s p.elements) p.elements).1 with ⟨ih1, ih2⟩
    constructor
    · exact Nat.le_trans hd1 (Nat.le_trans hc1 ih1)
    · intro n hn
      have hn2 : n < (deepcopyList s p.elements).next := Nat.lt_of_lt_of_le hn hd1
      have hn3 : n < (copyAndParseList parse (deepcopyList s p.elements) p.elements).1.next :=
        Nat.lt_of_lt_of_le hn2 hc1
      rw [ih2 n hn3, hc2 n hn2, hd2 n hn]

theorem mdRefs_append (a b : List MdItem) : mdRefs (a ++ b) = mdRefs a ++ mdRefs b := by
  simp [mdRefs, List.filterMap_append]

theorem mdRefs_map_ref : ∀ l : List Nat, mdRefs (l.map MdItem.ref) = l
  | [] => rfl
  | id :: rest => by
    simp only [List.map_cons, mdRefs, List.filterMap_cons]
    have := mdRefs_map_ref rest
    rw [mdRefs] at this
    rw [this]

theorem mdRefs_buildMd : ∀ (pages : List PageData) (acc : List MdItem),
    mdRefs (buildMd acc pages) = mdRefs acc ++ (pages.map PageData.elements).flatten
  | [], acc => by simp [buildMd]
  | p :: rest, acc => by
    rw [buildMd]
    rcases hels : p.elements with _ | ⟨e, es⟩
    · simp only []
      rw [mdRefs_buildMd rest acc]
      simp [hels]
    · simp only []
      rw [mdRefs_buildMd rest _]
      have hacc : mdRefs ((if acc ≠ [] then acc ++ [MdItem.sep acc.length] else acc)
          ++ (e :: es).map MdItem.ref) = mdRefs acc ++ (e :: es) := by
        rw [mdRefs_append]
        rw [mdRefs_map_ref]
        congr 1
        split
        · rw [mdRefs_append]
          simp [mdRefs]
        · rfl
      rw [hacc]
      simp [hels]

/-- Claim C8: both save functions compute the normalized JSON on deep
copies and hand the original references to the markdown renderer:
every original element value is unchanged in the final store (in
particular no `parsed_content` is added to it), the single-image
markdown input is exactly the input list, and the combined-PDF
markdown input contains exactly the original element references of all
pages in order. -/
theorem claim8_originals_unchanged (parse : String → Except String HtmlNode)
    (s : Store) (ids : List Nat) (pages : List PageData)
    (hids : ∀ id ∈ ids, id < s.next)
    (hpg : ∀ p ∈ pages, ∀ id ∈ p.elements, id < s.next) :
    (∀ id ∈ ids, (save_outputs_model parse s ids).1.vals id = s.vals id) ∧
    (save_outputs_model parse s ids).2.2 = ids ∧
    (∀ p ∈ pages, ∀ id ∈ p.elements,
      (save_combined_model parse s pages).1.vals id = s.vals id) ∧
    mdRefs (save_combined_model parse s pages).2.2 =
      (pages.map PageData.elements).flatten := by
  refine ⟨?_, rfl, ?_, ?_⟩
  · intro id hid
    exact (copyAndParseList_frame parse ids s).2 id (hids id hid)
  · intro p hp id hid
    exact (save_combined_loop_frame parse pages s).2 id (hpg p hp id hid)
  · have := mdRefs_buildMd pages []
    simpa using this

/-- Witness for C8: two elements and two one-element pages in a
two-reference store. -/
theorem claim8_witness :
    (∀ id ∈ [0, 1], (save_outputs_model failParse sampleStore [0, 1]).1.vals id =
      sampleStore.vals id) ∧
    (save_outputs_model failParse sampleStore [0, 1]).2.2 = [0, 1] ∧
    (∀ p ∈ samplePages, ∀ id ∈ p.elements,
      (save_combined_model failParse sampleStore samplePages).1.vals id =
        sampleStore.vals id) ∧
    mdRefs (save_combined_model failParse sampleStore samplePages).2.2 =
      (samplePages.map PageData.elements).flatten :=
  claim8_originals_unchanged failParse sampleStore [0, 1] samplePages
    (by decide) (by decide)

end Dolphin
